import Mathlib

/-!
Verification development for the `nft_inspector` NFT trust-analysis pipeline.

The definitions below are a shallow embedding of the Python sources under
`src/nft_inspector/`.  Python strings are modelled as `List Char`, Python
integers as `Int`/`Nat`, fallible code as `Except`/`Option`, and the
`float` weighted sums of the trust analyzer as exact decimal arithmetic
(the weights are decimal literals, so every weighted sum of integer
sub-scores is an integer number of tenths; `round` is modelled as Python's
round-half-to-even on that exact value).

A few records referenced by the analysed modules (`AccessControlInfo`,
`ComplianceReport`, the `renounced` governance value) are declared in
modules that are not part of the provided snapshot; those are modelled
from the specification and are marked as such in their doc comments.
-/

namespace NftInspector

/-! ## types.py: MediaProtocol and its score table -/

/-- `MediaProtocol` enum from `types.py`. -/
inductive MediaProtocol where
  | http
  | https
  | ipfs
  | ipns
  | arweave
  | data_uri
  | none
  | unknown
deriving DecidableEq, Fintype, Repr

/-- `MediaProtocol.get_score` from `types.py`: the protocol score table. -/
def MediaProtocol.get_score : MediaProtocol → Int
  | .data_uri => 10
  | .arweave => 8
  | .ipfs => 6
  | .ipns => 4
  | .https => 2
  | .http => 1
  | .none => 0
  | .unknown => 0

/-! ## analyzer.py: protocol extraction (`UrlAnalyzer._extract_protocol`) -/

/-- Characters allowed in a URL scheme by CPython `urllib.parse`
(ASCII letters, digits, `+`, `-`, `.`). -/
def isSchemeChar (c : Char) : Bool :=
  c.isAlpha || c.isDigit || c = ('+') || c = ('-') || c = ('.')

/-- The scheme extracted by CPython `urlsplit`: the text before the first
`:` when it is non-empty, starts with a letter and consists of scheme
characters only; lower-cased.  Otherwise the empty scheme. -/
def pyUrlScheme (url : List Char) : List Char :=
  let p := url.takeWhile isSchemeChar
  let headAlpha : Bool :=
    match url.head? with
    | some c => c.isAlpha
    | Option.none => false
  if !p.isEmpty && headAlpha && ((url.drop p.length).head? == some (':')) then
    p.map Char.toLower
  else
    []

/-- `UrlAnalyzer._extract_protocol` from `analyzer.py`: `data:` URIs are
recognised by literal text matching; every other URL is classified purely
by its parsed scheme. -/
def extractProtocol (url : List Char) : MediaProtocol :=
  if ([('d'), ('a'), ('t'), ('a'), (':')] : List Char).isPrefixOf url then
    .data_uri
  else
    match pyUrlScheme url with
    | [] => .none
    | ('h') :: ('t') :: ('t') :: ('p') :: [] => .http
    | ('h') :: ('t') :: ('t') :: ('p') :: ('s') :: [] => .https
    | ('i') :: ('p') :: ('f') :: ('s') :: [] => .ipfs
    | ('i') :: ('p') :: ('n') :: ('s') :: [] => .ipns
    | ('a') :: ('r') :: [] => .arweave
    | _ => .unknown

/-- The gateway heuristic of `UrlAnalyzer._analyze_http_url`: for
`http`/`https` URLs, `is_gateway` is set when the URL contains the
substring `ipfs` or the substring `arweave`. -/
def isGatewayHeuristic (url : List Char) : Bool :=
  decide (([('i'), ('p'), ('f'), ('s')] : List Char) <:+: url) ||
  decide (([('a'), ('r'), ('w'), ('e'), ('a'), ('v'), ('e')] : List Char) <:+: url)

end NftInspector

namespace NftInspector

/-- Helper: literal character list of the string `https://`. -/
def httpsSlashes : List Char :=
  [('h'), ('t'), ('t'), ('p'), ('s'), (':'), ('/'), ('/')]

/-- Helper: literal character list of the string `ipfs://`. -/
def ipfsSlashes : List Char :=
  [('i'), ('p'), ('f'), ('s'), (':'), ('/'), ('/')]

/-- Helper: literal character list of the string `ar://`. -/
def arSlashes : List Char :=
  [('a'), ('r'), (':'), ('/'), ('/')]

/-- Helper: the concrete gateway URL `https://ipfs.io/ipfs/Qm` as chars. -/
def ipfsGatewayExample : List Char :=
  httpsSlashes ++
  [('i'), ('p'), ('f'), ('s'), ('.'), ('i'), ('o'), ('/'),
   ('i'), ('p'), ('f'), ('s'), ('/'), ('Q'), ('m')]

/-- Helper: the concrete URL `https://x.arweave.net/f` as chars. -/
def arweaveHostExample : List Char :=
  httpsSlashes ++
  [('x'), ('.'), ('a'), ('r'), ('w'), ('e'), ('a'), ('v'), ('e'),
   ('.'), ('n'), ('e'), ('t'), ('/'), ('f')]

end NftInspector

namespace NftInspector

/-! ## types.py: proxy / governance / access-control enumerations -/

/-- `ProxyStandard` enum from `types.py`. -/
inductive ProxyStandard where
  | eip_897
  | eip_1967_transparent
  | eip_1822_uups
  | eip_1167_minimal
  | eip_2535_diamond
  | beacon_proxy
  | custom_proxy
  | not_proxy
deriving DecidableEq, Fintype, Repr

/-- The string value of each `ProxyStandard` member, from `types.py`. -/
def ProxyStandard.value : ProxyStandard → String
  | .eip_897 => ("EIP-897")
  | .eip_1967_transparent => ("EIP-1967-Transparent")
  | .eip_1822_uups => ("EIP-1822-UUPS")
  | .eip_1167_minimal => ("EIP-1167-Minimal")
  | .eip_2535_diamond => ("EIP-2535-Diamond")
  | .beacon_proxy => ("Beacon")
  | .custom_proxy => ("Custom")
  | .not_proxy => ("not_proxy")

/-- `GovernanceType` enum.  The provided `types.py` snapshot declares
`eoa`, `contract`, `multisig`, `timelock`, `unknown`; the `renounced`
member is referenced by `trust_analyzer.py` and `access_control_detector.py`
and listed in the specification's `AccessControlInfo`, so it is modelled
from the spec here. -/
inductive GovernanceType where
  | eoa
  | contract
  | multisig
  | timelock
  | renounced
  | unknown
deriving DecidableEq, Fintype, Repr

/-- `AccessControlType` enum.  The snapshot's `types.py` declares `none`,
`simple_owner`, `ownable`, `role_based`, `timelock`, `custom`; the
`access_control` member used by `trust_analyzer.py` (the role-based
AccessControl pattern per the spec's "+1 if role-based AccessControl") is
modelled from the spec. -/
inductive AccessControlType where
  | none
  | simple_owner
  | ownable
  | role_based
  | timelock
  | custom
  | access_control
deriving DecidableEq, Fintype, Repr

/-- `ProxyInfo` from `models.py`, restricted to the fields the trust
analyzer's upgradeability scoring reads (`is_proxy`, `proxy_standard`,
`is_upgradeable`); the optional address fields are carried as plain
strings where needed elsewhere. -/
structure ProxyInfo where
  is_proxy : Bool
  proxy_standard : ProxyStandard
  implementation_address : Option (List Char) := Option.none
  is_upgradeable : Bool := false
deriving DecidableEq, Repr

/-- Modelled from the spec: `AccessControlInfo` (§3) is declared in a
module missing from the provided snapshot (`models.py` is imported for it
but does not contain it).  Fields follow the spec plus the attribute
accesses made by `trust_analyzer.py`: `has_owner`, `has_roles`,
`governance_type`, `access_control_type`, `owner_ens_name`,
`admin_ens_name`, `timelock_delay`. -/
structure AccessControlInfo where
  has_owner : Bool
  has_roles : Bool
  governance_type : Option GovernanceType := Option.none
  access_control_type : Option AccessControlType := Option.none
  owner_ens_name : Option String := Option.none
  admin_ens_name : Option String := Option.none
  timelock_delay : Option Int := Option.none
deriving DecidableEq, Repr

/-! ## trust_analyzer.py: trustlessness scoring -/

/-- `TrustAnalyzer._score_access_control`: returns
`(score, has_owner, owner_type, transparency)`. -/
def scoreAccessControl (info : Option AccessControlInfo) :
    Int × Bool × String × Int :=
  match info with
  | Option.none => (10, false, ("none"), 10)
  | some i =>
    let has_owner := i.has_owner || i.has_roles
    let base : Int × String × Int :=
      if !has_owner then (10, ("none"), 10)
      else
        match i.governance_type with
        | some .renounced => (10, ("renounced"), 10)
        | some .eoa => (3, ("eoa"), 2)
        | some .multisig => (6, ("multisig"), 6)
        | some .timelock => (8, ("timelock"), 8)
        | some .contract => (5, ("contract"), 4)
        | _ => (4, ("unknown"), 3)
    let adjusted : Int × Int :=
      match i.access_control_type with
      | some .access_control => (min (base.1 + 1) 10, min (base.2.2 + 2) 10)
      | some .timelock => (min (base.1 + 2) 10, min (base.2.2 + 2) 10)
      | _ => (base.1, base.2.2)
    (adjusted.1, has_owner, base.2.1, adjusted.2)

/-- `TrustAnalyzer._score_governance_type`. -/
def scoreGovernanceType (info : Option AccessControlInfo) : Int :=
  match info with
  | Option.none => 10
  | some i =>
    let has_owner := i.has_owner || i.has_roles
    if !has_owner then 10
    else
      match i.governance_type with
      | Option.none => 8
      | some .renounced => 10
      | some .timelock => 7
      | some .multisig => 5
      | some .contract => 3
      | some .eoa => 2
      | some .unknown => 1

/-- The `proxy_scores` table inside `TrustAnalyzer._score_upgradeability`;
`eip_897` is absent from the Python dict and takes the `.get` default 4. -/
def proxyScores : ProxyStandard → Int
  | .eip_1167_minimal => 8
  | .eip_1822_uups => 4
  | .eip_1967_transparent => 5
  | .beacon_proxy => 4
  | .eip_2535_diamond => 3
  | .custom_proxy => 4
  | .not_proxy => 10
  | .eip_897 => 4

/-- `TrustAnalyzer._score_upgradeability`: returns
`(score, is_upgradeable, proxy_type)`.  Every `ProxyStandard` member is a
non-empty string and hence truthy, so the `if proxy_info.proxy_standard`
guard always takes the member's value. -/
def scoreUpgradeability (pi : Option ProxyInfo) :
    Int × Bool × Option String :=
  match pi with
  | Option.none => (10, false, Option.none)
  | some p =>
    if !p.is_proxy then (10, false, Option.none)
    else
      let proxy_type := some p.proxy_standard.value
      if !p.is_upgradeable then (8, false, proxy_type)
      else (proxyScores p.proxy_standard, true, proxy_type)

/-- Python's `round` applied to the exact value `n / 10`
(round half to even).  All uses have `0 ≤ n`. -/
def pyRoundTenths (n : Int) : Int :=
  let q := n / 10
  let r := n % 10
  if r < 5 then q
  else if 5 < r then q + 1
  else if q % 2 = 0 then q else q + 1

/-- Round half to even on an exact rational, as Python's `round` behaves
on a value it represents exactly.  Used to state claims in the spec's
`round(w1 * a + w2 * b + ...)` form. -/
def roundHalfEven (q : ℚ) : Int :=
  let f := ⌊q⌋
  if q - f < 1/2 then f
  else if 1/2 < q - f then f + 1
  else if f % 2 = 0 then f else f + 1

/-- The trustlessness portion of `TrustlessnessScore` (`trust_models.py`)
computed by `TrustAnalyzer._analyze_trustlessness`; the ENS echo fields
are carried through unchanged and omitted here. -/
structure TrustlessnessScore where
  overall_score : Int
  access_control_score : Int
  governance_score : Int
  upgradeability_score : Int
  has_owner : Bool
  owner_type : String
  is_upgradeable : Bool
  proxy_type : Option String
  governance_transparency : Int
deriving DecidableEq, Repr

/-- `TrustAnalyzer._analyze_trustlessness`: the overall score is
`round(0.5 * access_control + 0.3 * upgradeability + 0.2 * governance)`,
computed here as the exact number of tenths `5a + 3u + 2g` rounded half
to even. -/
def analyzeTrustlessness (info : Option AccessControlInfo)
    (pi : Option ProxyInfo) : TrustlessnessScore :=
  let ac := scoreAccessControl info
  let governance_score := scoreGovernanceType info
  let up := scoreUpgradeability pi
  { overall_score := pyRoundTenths (5 * ac.1 + 3 * up.1 + 2 * governance_score)
    access_control_score := ac.1
    governance_score := governance_score
    upgradeability_score := up.1
    has_owner := ac.2.1
    owner_type := ac.2.2.1
    is_upgradeable := up.2.1
    proxy_type := up.2.2
    governance_transparency := ac.2.2.2 }

/-! ## models.py / svg_analyzer.py / html_analyzer.py: dependency reports -/

/-- The projection of a dependency resource's `UrlInfo` that
`_calculate_dependency_score` reads: its protocol. -/
structure ResourceUrlInfo where
  protocol : MediaProtocol
deriving DecidableEq, Repr

/-- `ExternalResource` from `models.py`, restricted to the `url_info`
field used by dependency scoring (`url`, `element_type` and `attribute`
are carried through to the report unchanged). -/
structure ExternalResource where
  url_info : ResourceUrlInfo
deriving DecidableEq, Repr

/-- `DependencyReport` from `models.py`. -/
structure DependencyReport where
  is_fully_onchain : Bool
  min_protocol_score : Int
  min_protocol : Option MediaProtocol
  external_resources : List ExternalResource
  total_dependencies : Nat
deriving DecidableEq, Repr

/-- The running-minimum step of the loop in
`_calculate_dependency_score`: `min_score` starts at `float('inf')`
(modelled as `Option.none`) and is replaced whenever a strictly smaller
protocol score is seen. -/
def minScanStep (st : Option Int × Option MediaProtocol)
    (r : ExternalResource) : Option Int × Option MediaProtocol :=
  let score := r.url_info.protocol.get_score
  match st.1 with
  | Option.none => (some score, some r.url_info.protocol)
  | some m => if score < m then (some score, some r.url_info.protocol) else st

/-- `_calculate_dependency_score`, identical in `svg_analyzer.py` and
`html_analyzer.py`: empty resource list yields the fully-on-chain report
with score 10; otherwise the minimum protocol score over the list. -/
def calculateDependencyScore (rs : List ExternalResource) : DependencyReport :=
  if rs.isEmpty then
    { is_fully_onchain := true
      min_protocol_score := 10
      min_protocol := Option.none
      external_resources := []
      total_dependencies := 0 }
  else
    match (rs.foldl minScanStep (Option.none, Option.none)) with
    | (some m, p) =>
      { is_fully_onchain := decide (10 ≤ m)
        min_protocol_score := m
        min_protocol := p
        external_resources := rs
        total_dependencies := rs.length }
    | (Option.none, _) =>
      { is_fully_onchain := false
        min_protocol_score := 0
        min_protocol := some .unknown
        external_resources := rs
        total_dependencies := rs.length }

/-- `SvgAnalyzer.analyze_svg_content`: the BeautifulSoup parse and URL
extraction (with each resource's network analysis already absorbed into a
`ResourceUrlInfo`) is abstracted as an `Except` input; a parse failure
takes the `except` branch and returns the fixed fallback report. -/
def analyzeSvgContent (parsed : Except String (List ExternalResource)) :
    DependencyReport :=
  match parsed with
  | .error _ =>
    { is_fully_onchain := false
      min_protocol_score := 0
      min_protocol := some .unknown
      external_resources := []
      total_dependencies := 0 }
  | .ok rs => calculateDependencyScore rs

/-- `HtmlAnalyzer.analyze_html_content`: structurally identical to the
SVG variant, including the parse-failure fallback report. -/
def analyzeHtmlContent (parsed : Except String (List ExternalResource)) :
    DependencyReport :=
  match parsed with
  | .error _ =>
    { is_fully_onchain := false
      min_protocol_score := 0
      min_protocol := some .unknown
      external_resources := []
      total_dependencies := 0 }
  | .ok rs => calculateDependencyScore rs

/-- The minimum protocol score as the claim states it: the minimum over
`external_resources[*].url_info.protocol.score`, or 10 for an empty list.
Written from the spec sentence for comparison with the code's fold. -/
def specMinProtocolScore (rs : List ExternalResource) : Int :=
  match rs.map (fun r => r.url_info.protocol.get_score) with
  | [] => 10
  | s :: ss => ss.foldl min s

/-! ## trust_analyzer.py: permanence component scores (C3) -/

/-- `UrlInfo` from `models.py`, restricted to the fields
`_get_url_protocol_score` reads: the protocol and the optional
dependency report. -/
structure UrlInfo where
  protocol : MediaProtocol
  external_dependencies : Option DependencyReport := Option.none
deriving DecidableEq, Repr

/-- `TokenDataReport` from `models.py`, restricted to the fields the
permanence analysis reads (`external_url` and `image_data` are not
consulted by `_analyze_permanence`). -/
structure TokenDataReport where
  token_uri : UrlInfo
  image : Option UrlInfo := Option.none
  animation_url : Option UrlInfo := Option.none
deriving DecidableEq, Repr

/-- `ContractDataReport` from `models.py`, restricted to `contract_uri`. -/
structure ContractDataReport where
  contract_uri : UrlInfo
deriving DecidableEq, Repr

/-- `TrustAnalyzer._get_url_protocol_score` with the default
`gate_by_dependencies = True` used by `_analyze_permanence`: `None`
scores 0; a URL whose dependency report is present and not fully
on-chain is gated by the report's minimum protocol score. -/
def getUrlProtocolScore (u : Option UrlInfo) : Int :=
  match u with
  | Option.none => 0
  | some ui =>
    let base := ui.protocol.get_score
    match ui.external_dependencies with
    | some d => if !d.is_fully_onchain then min base d.min_protocol_score else base
    | Option.none => base

/-- The component-score fields of `PermanenceScore` (`trust_models.py`)
computed by `_analyze_permanence`; the rounded overall score, chain
penalty, `weakest_component` and the presentation fields are not needed
by the claims and are omitted. -/
structure PermanenceComponentScores where
  metadata_score : Int
  image_score : Int
  animation_score : Int
  contract_metadata_score : Int
  is_fully_onchain : Bool
deriving DecidableEq, Repr

/-- The component-score and `is_fully_onchain` computation of
`TrustAnalyzer._analyze_permanence` (lines 182–220): ungated component
scores feed the metadata-gating of image/animation, the contract URI
gates contract metadata (both scores read the same `contract_uri` field),
and `is_fully_onchain` is computed from the ungated metadata, image and
animation scores only. -/
def analyzePermanence (data_report : Option TokenDataReport)
    (contract_data_report : Option ContractDataReport) :
    PermanenceComponentScores :=
  let metadata_score := getUrlProtocolScore (data_report.map (fun r => r.token_uri))
  let image_score := getUrlProtocolScore (data_report.bind (fun r => r.image))
  let animation_score := getUrlProtocolScore (data_report.bind (fun r => r.animation_url))
  let contract_metadata_score :=
    getUrlProtocolScore (contract_data_report.map (fun r => r.contract_uri))
  let gated_image_score := if 0 < image_score then min metadata_score image_score else 0
  let gated_animation_score :=
    if 0 < animation_score then min metadata_score animation_score else 0
  let contract_uri_score :=
    getUrlProtocolScore (contract_data_report.map (fun r => r.contract_uri))
  let gated_contract_score :=
    if 0 < contract_metadata_score then min contract_uri_score contract_metadata_score
    else 0
  { metadata_score := metadata_score
    image_score := gated_image_score
    animation_score := gated_animation_score
    contract_metadata_score := gated_contract_score
    is_fully_onchain :=
      decide (metadata_score = 10) &&
      (decide (image_score = 0) || decide (image_score = 10)) &&
      (decide (animation_score = 0) || decide (animation_score = 10)) }

/-! ## client.py: ERC-1155 `{id}` substitution (C8) -/

/-- The placeholder `{id}` as characters. -/
def idLowerPat : List Char := [('\x7b'), ('i'), ('d'), ('\x7d')]

/-- The placeholder `{ID}` as characters. -/
def idUpperPat : List Char := [('\x7b'), ('I'), ('D'), ('\x7d')]

/-- Digit recursion for the hexadecimal rendering, with structural fuel:
each step divides by 16, so any fuel above `n` suffices. -/
def toHexDigitsGo : Nat → Nat → List Char
  | 0, _ => []
  | fuel + 1, n =>
    if n < 16 then [Nat.digitChar n]
    else toHexDigitsGo fuel (n / 16) ++ [Nat.digitChar (n % 16)]

/-- Minimal lowercase hexadecimal rendering of a natural number, as
Python's `x` format produces (most significant digit first). -/
def toHexDigits (n : Nat) : List Char :=
  toHexDigitsGo (n + 1) n

/-- Python `format(n, '064x')`: the lowercase hex rendering left-padded
with `'0'` to at least 64 characters. -/
def format064x (n : Nat) : List Char :=
  List.replicate (64 - (toHexDigits n).length) ('0') ++ toHexDigits n

/-- The scan of Python `str.replace`, with explicit structural fuel: at
least one character of `s` is consumed per step, so any fuel of at least
`s.length` yields the replace result. -/
def pyReplaceGo : Nat → List Char → List Char → List Char → List Char
  | 0, s, _, _ => s
  | fuel + 1, s, pat, rep =>
    if pat ≠ [] ∧ pat.isPrefixOf s then
      rep ++ pyReplaceGo fuel (s.drop pat.length) pat rep
    else
      match s with
      | [] => []
      | c :: cs => c :: pyReplaceGo fuel cs pat rep

/-- Python `str.replace` for a non-empty pattern: scan left to right,
replacing each non-overlapping occurrence and resuming after the
replacement.  (Python's behaviour for an empty pattern — interspersing
the replacement — is never exercised by the embedded code.) -/
def pyReplace (s pat rep : List Char) : List Char :=
  pyReplaceGo s.length s pat rep

/-- `substitute_erc1155_id` from `client.py`: URIs containing neither
placeholder are returned unchanged; otherwise both `{id}` and `{ID}` are
replaced (in that order) by `format(token_id, '064x')`. -/
def substituteErc1155Id (uri : List Char) (tokenId : Nat) : List Char :=
  if ¬ idLowerPat <:+: uri ∧ ¬ idUpperPat <:+: uri then uri
  else
    let hexId := format064x tokenId
    pyReplace (pyReplace uri idLowerPat hexId) idUpperPat hexId

/-! ## types.py / chains/web3_wrapper.py: RPC results and batching (C7) -/

/-- `RpcErrorType` enum from `types.py`. -/
inductive RpcErrorType where
  | success
  | rpc_error
  | contract_not_found
  | function_not_found
  | execution_reverted
  | custom_error
  | panic_error
  | timeout
  | network_error
  | unknown_error
deriving DecidableEq, Fintype, Repr

/-- `RpcResult` from `types.py` (the `error_data` dict is carried opaquely
and omitted here). -/
structure RpcResult (α : Type) where
  success : Bool
  error_type : Option RpcErrorType := Option.none
  error_message : Option String := Option.none
  result : Option α := Option.none
deriving DecidableEq, Repr

/-- `RpcResult.success_result`. -/
def RpcResult.success_result (r : α) : RpcResult α :=
  { success := true, error_type := some .success, result := some r }

/-- `RpcResult.error_result`. -/
def RpcResult.error_result (t : RpcErrorType) (msg : String) : RpcResult α :=
  { success := false, error_type := some t, error_message := some msg }

/-- A raised Python exception, abstracted to what
`EnhancedWeb3._handle_exception` consumes. -/
structure PyException where
  msg : String
deriving DecidableEq, Repr

/-- `EnhancedWeb3.async_call_contract_function`: the underlying contract
call either returns a value or raises, and every raise is categorised by
`_handle_exception` (abstracted as the `handle` argument) into an error
result.  The function itself never raises. -/
def asyncCallContractFunction (handle : PyException → RpcErrorType × String)
    (call : Except PyException α) : RpcResult α :=
  match call with
  | .ok r => RpcResult.success_result r
  | .error e => RpcResult.error_result (handle e).1 (handle e).2

/-- `EnhancedWeb3.async_batch_call_contract_functions`: issues the calls
with `asyncio.gather`, which returns the per-call results in input order;
since `async_call_contract_function` is total, the surrounding
`try`/`except` (which would replicate one error for all calls) never
fires, and the batch is the ordered map of the single-call wrapper. -/
def asyncBatchCallContractFunctions (handle : PyException → RpcErrorType × String)
    (calls : List (Except PyException α)) : List (RpcResult α) :=
  calls.map (asyncCallContractFunction handle)

/-! ## client.py: URI batch and substitution call site (C8) -/

/-- `NFTStandard` enum from `types.py`. -/
inductive NFTStandard where
  | erc721
  | erc1155
  | unknown
deriving DecidableEq, Fintype, Repr

/-- The tail of `NFTInspector.fetch_token_and_contract_uri` after the
batch call: for an ERC-1155 contract whose `uri(id)` call succeeded with
a truthy (non-empty) result, the result is replaced by the substituted
URI; the substitution is applied exactly here, once, and the list
`[token-uri result, contract-uri result]` is returned for resolution. -/
def fetchTokenAndContractUri (standard : NFTStandard) (tokenId : Nat)
    (uriResult contractUriResult : RpcResult (List Char)) :
    List (RpcResult (List Char)) :=
  match standard, uriResult.success, uriResult.result with
  | .erc1155, true, some r =>
    if r.isEmpty then [uriResult, contractUriResult]
    else [{ uriResult with result := some (substituteErc1155Id r tokenId) },
          contractUriResult]
  | _, _, _ => [uriResult, contractUriResult]

/-! ## proxy_detector.py: EIP-1167 minimal-proxy bytecode check (C9) -/

/-- `EIP1167_BYTECODE_PREFIX` from `proxy_detector.py`. -/
def eip1167Pre : List Char := String.toList ("363d3d373d3d3d363d73")

/-- `EIP1167_BYTECODE_SUFFIX` from `proxy_detector.py`. -/
def eip1167Suf : List Char := String.toList ("5af43d82803e903d91602b57fd5bf3")

/-- Python `bytes.hex()`: two lowercase hex characters per byte,
most significant nibble first.  Bytes are modelled as naturals below
256. -/
def bytesToHex : List Nat → List Char
  | [] => []
  | b :: bs => Nat.digitChar (b / 16) :: Nat.digitChar (b % 16) :: bytesToHex bs

/-- `ProxyDetector._check_minimal_proxy_bytecode`, applied to the hex
rendering of the runtime bytecode: a match requires exactly 90 hex
characters (45 bytes) carrying the EIP-1167 prefix and suffix, and
extracts the implementation address from hex positions 20–59 (bytes
10–29).  `EthereumAddress.validate` re-cases the extracted address into
EIP-55 checksum form; per the spec addresses are identified by their
20-byte value, so the model keeps the lowercase hex value. -/
def checkMinimalProxyBytecode (bytecodeHex : List Char) : Option ProxyInfo :=
  if bytecodeHex.length = 90 && eip1167Pre.isPrefixOf bytecodeHex &&
      eip1167Suf.isSuffixOf bytecodeHex then
    some { is_proxy := true
           proxy_standard := .eip_1167_minimal
           implementation_address := some ((bytecodeHex.drop 20).take 40)
           is_upgradeable := false }
  else
    Option.none

/-! ## uri_parsers: resolver dispatch and the data-URI gate (C10) -/

/-- The exact prefix accepted by `DataURIParser.parse`
(`uri_parsers/data_uri_parser.py`). -/
def jsonB64Head : List Char := String.toList ("data:application/json;base64,")

/-- The effect a successful resolution would perform; the network fetch
or base64+JSON decode itself is outside the embedded control flow. -/
inductive Resolution where
  | jsonFromBase64 (payload : List Char)
  | ipfsFetch (uri : List Char)
  | arweaveFetch (uri : List Char)
  | httpFetch (uri : List Char)
deriving DecidableEq, Repr

/-- `DataURIParser.can_handle` (`uri_parsers/data_uri_parser.py`). -/
def dataCanHandle (uri : List Char) : Bool :=
  (String.toList ("data:")).isPrefixOf uri

/-- `IPFSParser.can_handle`. -/
def ipfsCanHandle (uri : List Char) : Bool :=
  (String.toList ("ipfs://")).isPrefixOf uri

/-- `ArweaveParser.can_handle`. -/
def arweaveCanHandle (uri : List Char) : Bool :=
  (String.toList ("ar://")).isPrefixOf uri

/-- `HTTPParser.can_handle`. -/
def httpCanHandle (uri : List Char) : Bool :=
  (String.toList ("http://")).isPrefixOf uri ||
  (String.toList ("https://")).isPrefixOf uri

/-- `DataURIParser.parse` of `uri_parsers/data_uri_parser.py`: any data
URI not carrying the exact `data:application/json;base64,` prefix raises
`ValueError`; otherwise the payload after the header is base64-decoded
and JSON-parsed (Python takes `split(header)[1]`, which is the text
after the leading header whenever the header text does not recur). -/
def dataUriParserParse (uri : List Char) : Except String Resolution :=
  if jsonB64Head.isPrefixOf uri then
    .ok (.jsonFromBase64 (uri.drop jsonB64Head.length))
  else
    .error ("Only base64 encoded JSON data URIs are supported")

/-- `URIResolver.resolve` (`uri_parsers/resolver.py`): the first parser
in the order data, ipfs, arweave, http whose `can_handle` holds performs
the resolution; otherwise `ValueError`. -/
def uriResolverResolve (uri : List Char) : Except String Resolution :=
  if dataCanHandle uri then dataUriParserParse uri
  else if ipfsCanHandle uri then .ok (.ipfsFetch uri)
  else if arweaveCanHandle uri then .ok (.arweaveFetch uri)
  else if httpCanHandle uri then .ok (.httpFetch uri)
  else .error ("No parser available for URI")

/-- `NFTInspector.fetch_metadata` (`client.py`): `resolve_json` composes
`resolve` with JSON parsing, and any exception — in particular the
data-URI gate's `ValueError` — is caught and turned into `None`.  The
post-resolution JSON validation is outside the embedded control flow; on
the resolution-failure paths the result is `None` regardless. -/
def fetchMetadata (uri : List Char) : Option Resolution :=
  match uriResolverResolve uri with
  | .ok r => some r
  | .error _ => Option.none

/-! ## data_uri_utils.py: the general data-URI classifier (C10) -/

/-- `DataEncoding` enum from `types.py`. -/
inductive DataEncoding where
  | base64
  | percent
  | plain
deriving DecidableEq, Fintype, Repr

/-- Python `s.split(sep, 1)` when `sep` is a single character: `none`
when the separator is absent (in which case the code's two-name unpacking
raises `ValueError`). -/
def splitFirstAt (sep : Char) : List Char → Option (List Char × List Char)
  | [] => Option.none
  | c :: cs =>
    if c = sep then some ([], cs)
    else (splitFirstAt sep cs).map (fun p => (c :: p.1, p.2))

/-- Python `s.split(sep)` for a single-character separator: all fields,
empties preserved. -/
def splitAllAt (sep : Char) : List Char → List (List Char)
  | [] => [[]]
  | c :: cs =>
    let r := splitAllAt sep cs
    if c = sep then [] :: r
    else
      match r with
      | h :: t => (c :: h) :: t
      | [] => [[c]]

/-- The classification outcome of `data_uri_utils.DataURIParser.parse`:
media type and encoding.  The decoded payload and its byte size are not
needed by the claims and are not modelled. -/
structure DataURIClassification where
  media_type : List Char
  encoding : DataEncoding
deriving DecidableEq, Repr

/-- `data_uri_utils.DataURIParser.parse`, header classification: requires
the `data:` scheme, splits header from payload at the first comma
(raising when there is none), strips the `data:` text from the header,
takes the first `;`-separated field as the media type (defaulting to
`text/plain` when empty), and classifies the encoding as base64 when the
header fields contain `base64`, else percent when the payload contains
`%`, else plain. -/
def dataUriUtilsClassify (uri : List Char) : Except String DataURIClassification :=
  if !(String.toList ("data:")).isPrefixOf uri then
    .error ("Invalid data URI")
  else
    match splitFirstAt (',') uri with
    | Option.none => .error ("not enough values to unpack")
    | some (header, payload) =>
      let headerParts := splitAllAt (';') (pyReplace header (String.toList ("data:")) [])
      let media_type :=
        match headerParts.head? with
        | some h => if h.isEmpty then String.toList ("text/plain") else h
        | Option.none => String.toList ("text/plain")
      let encoding :=
        if headerParts.contains (String.toList ("base64")) then DataEncoding.base64
        else if payload.contains ('%') then DataEncoding.percent
        else DataEncoding.plain
      .ok { media_type := media_type, encoding := encoding }

/-! ## compliance_checker.py / client.py: the ERC-4907 path of
`inspect_token` (C6) -/

/-- `ComplianceStatus` enum. Modelled from the spec: declared in the part
of `types.py` missing from the snapshot; values per spec §3
(`pass`, `fail`, `error`). -/
inductive ComplianceStatus where
  | pass
  | fail
  | error
deriving DecidableEq, Fintype, Repr

/-- `ERC4907ComplianceResult`. Modelled from the spec: declared in the
missing part of `types.py`; fields per §4.3.5 and the attribute writes in
`_check_erc4907_compliance`. -/
structure ERC4907ComplianceResult where
  user_of : Option String := Option.none
  user_expires : Option Int := Option.none
  user_status : Option ComplianceStatus := Option.none
  expires_status : Option ComplianceStatus := Option.none
  rental_active : Option Bool := Option.none
deriving DecidableEq, Repr

/-- The zero address literal used by the compliance checker. -/
def zeroAddress : String := "0x0000000000000000000000000000000000000000"

/-- `NFTComplianceChecker._check_erc4907_compliance`: the two batched
calls are processed into statuses; when a user is set and `userExpires`
succeeded, `rental_active` requires the *unguarded* call
`self.w3.eth.get_block('latest')['timestamp']` (line 222), modelled as an
`Except` whose error propagates out of the function. -/
def checkErc4907Compliance (user_result : RpcResult String)
    (expires_result : RpcResult Int)
    (latestBlockTimestamp : Except String Int) :
    Except String ERC4907ComplianceResult :=
  let afterUser : ERC4907ComplianceResult :=
    match user_result.success, user_result.result with
    | true, some addr =>
      { user_of := if addr = zeroAddress then Option.none else some addr
        user_status := some .pass }
    | _, _ => { user_status := some .error }
  match expires_result.success, expires_result.result with
  | true, some expires =>
    let r := { afterUser with user_expires := some expires
                              expires_status := some .pass }
    match r.user_of with
    | some _ =>
      match latestBlockTimestamp with
      | .ok ts => .ok { r with rental_active := some (decide (ts < expires)) }
      | .error e => .error e
    | Option.none => .ok { r with rental_active := some false }
  | _, _ => .ok { afterUser with expires_status := some .error }

/-- `ComplianceReport`. Modelled from the spec: declared in the missing
part of `types.py`; restricted here to the ERC-4907 sub-report and the
overall status (the ERC-721/2981 sub-checks absorb all their errors into
statuses and do not affect the claim). -/
structure ComplianceReport where
  erc4907 : Option ERC4907ComplianceResult := Option.none
  overall_status : Option ComplianceStatus := Option.none
deriving DecidableEq, Repr

/-- `NFTComplianceChecker.check_compliance`, restricted to the ERC-4907
branch: when the interface is supported the sub-check runs (propagating
any exception it raises) and `_has_failures` scans its `*_status` fields
for `fail`. -/
def checkCompliance (supports4907 : Bool)
    (user_result : RpcResult String) (expires_result : RpcResult Int)
    (latestBlockTimestamp : Except String Int) :
    Except String ComplianceReport :=
  if supports4907 then
    match checkErc4907Compliance user_result expires_result latestBlockTimestamp with
    | .error e => .error e
    | .ok r =>
      let failed := r.user_status = some ComplianceStatus.fail ∨
        r.expires_status = some ComplianceStatus.fail
      .ok { erc4907 := some r
            overall_status := some (if failed then .fail else .pass) }
  else
    .ok { overall_status := some .pass }

/-- The sub-results of `inspect_token` whose own error handling has
already absorbed every failure (metadata fetch, media analysis, proxy
and access-control detection, interface enumeration, trust analysis),
together with the inputs reaching the compliance check — the one
sub-call `inspect_token` does not guard. -/
structure InspectEnv where
  token_uri : Option String := Option.none
  proxy_info : Option ProxyInfo := Option.none
  access_control_info : Option AccessControlInfo := Option.none
  erc4907_supported : Bool
  user_result : RpcResult String
  expires_result : RpcResult Int
  latest_block_timestamp : Except String Int

/-- The fields of the assembled `TokenInfo` relevant here. -/
structure TokenInfoModel where
  token_uri : Option String
  proxy_info : Option ProxyInfo
  access_control_info : Option AccessControlInfo
  compliance_report : Option ComplianceReport
deriving DecidableEq, Repr

/-- `NFTInspector.inspect_token` (`client.py` lines 157–222): every
sub-step except the compliance check returns its already-absorbed value
(their internal `try`/`except` blocks never let an exception out, and
trust analysis is additionally wrapped at this level); the call
`compliance_checker.check_compliance(...)` on line 194 is not wrapped,
so an exception raised inside it propagates to the caller instead of
producing a `TokenInfo`. -/
def inspectToken (env : InspectEnv) : Except String TokenInfoModel :=
  match checkCompliance env.erc4907_supported env.user_result
      env.expires_result env.latest_block_timestamp with
  | .error e => .error e
  | .ok report =>
    .ok { token_uri := env.token_uri
          proxy_info := env.proxy_info
          access_control_info := env.access_control_info
          compliance_report := some report }

/-! ## Auxiliary definitions used by theorem statements and witnesses -/

/-- A lowercase hexadecimal digit. -/
def isLowerHexDigit (c : Char) : Bool :=
  c.isDigit || ((('a') ≤ c) && (c ≤ ('f')))

/-- Numeric value of a lowercase hexadecimal digit. -/
def hexCharVal (c : Char) : Nat :=
  if c.isDigit then c.toNat - ('0').toNat else c.toNat - ('a').toNat + 10

/-- The number denoted by a big-endian string of hexadecimal digits. -/
def fromHexDigits (l : List Char) : Nat :=
  l.foldl (fun acc c => 16 * acc + hexCharVal c) 0

/-- The ten EIP-1167 prefix bytes (`363d3d373d3d3d363d73`). -/
def eip1167PreBytes : List Nat :=
  [0x36, 0x3d, 0x3d, 0x37, 0x3d, 0x3d, 0x3d, 0x36, 0x3d, 0x73]

/-- The fifteen EIP-1167 suffix bytes (`5af43d82803e903d91602b57fd5bf3`). -/
def eip1167SufBytes : List Nat :=
  [0x5a, 0xf4, 0x3d, 0x82, 0x80, 0x3e, 0x90, 0x3d, 0x91, 0x60, 0x2b, 0x57,
   0xfd, 0x5b, 0xf3]

/-- The plain (non-base64, non-JSON) data URI `data:text/plain,hello`. -/
def plainDataUriExample : List Char := String.toList ("data:text/plain,hello")

end NftInspector

namespace NftInspector

/-! ## Helper lemmas -/

theorem minScan_go (rs : List ExternalResource) (m : Int) (p : Option MediaProtocol) :
    (rs.foldl minScanStep (some m, p)).1 =
      some (rs.foldl (fun acc r => min acc r.url_info.protocol.get_score) m) := by
  induction rs generalizing m p with
  | nil => rfl
  | cons r rs ih =>
    simp only [List.foldl_cons]
    by_cases h : r.url_info.protocol.get_score < m
    · have hstep : minScanStep (some m, p) r =
          (some r.url_info.protocol.get_score, some r.url_info.protocol) := by
        simp [minScanStep, h]
      rw [hstep, ih, min_eq_right h.le]
    · have hstep : minScanStep (some m, p) r = (some m, p) := by
        simp [minScanStep, h]
      rw [hstep, ih, min_eq_left (not_lt.mp h)]

theorem calc_min_eq_spec (rs : List ExternalResource) :
    (calculateDependencyScore rs).min_protocol_score = specMinProtocolScore rs := by
  cases rs with
  | nil => rfl
  | cons r rs =>
    unfold calculateDependencyScore
    simp only [List.isEmpty_cons, Bool.false_eq_true, if_false]
    have h0 : minScanStep (Option.none, Option.none) r =
        (some r.url_info.protocol.get_score, some r.url_info.protocol) := rfl
    rcases hst : rs.foldl minScanStep
        (some r.url_info.protocol.get_score, some r.url_info.protocol) with ⟨f, snd⟩
    have hf : f = some (rs.foldl
        (fun acc x => min acc x.url_info.protocol.get_score)
        r.url_info.protocol.get_score) := by
      have hgo := minScan_go rs r.url_info.protocol.get_score (some r.url_info.protocol)
      rw [hst] at hgo
      exact hgo
    subst hf
    rw [List.foldl_cons, h0, hst]
    simp only [specMinProtocolScore, List.map_cons, List.foldl_map]

/-! ## C2: upgradeability score table -/

/-- C2 counterexample: the claim assigns 3 to an upgradeable EIP-1967
transparent proxy and 10 to a non-upgradeable proxy; the code computes 5
and 8 respectively. -/
theorem upgradeability_claim_table_fails :
    (scoreUpgradeability (some ⟨true, .eip_1967_transparent, Option.none, true⟩)).1 = 5 ∧
    (scoreUpgradeability (some ⟨true, .eip_1967_transparent, Option.none, true⟩)).1 ≠ 3 ∧
    (scoreUpgradeability (some ⟨true, .eip_1167_minimal, Option.none, false⟩)).1 = 8 ∧
    (scoreUpgradeability (some ⟨true, .eip_1167_minimal, Option.none, false⟩)).1 ≠ 10 ∧
    (scoreUpgradeability (some ⟨true, .eip_1167_minimal, Option.none, false⟩)).1 ≠ 9 := by
  refine ⟨rfl, by decide, rfl, by decide, by decide⟩

/-- C2 (amended): `_score_upgradeability` yields 10 for a missing or
non-proxy record, 8 for a proxy that is not upgradeable, and for
upgradeable proxies the table 1167 → 8, 1967-transparent → 5, UUPS → 4,
beacon → 4, diamond → 3, custom → 4. -/
theorem upgradeability_score_cases :
    (scoreUpgradeability Option.none).1 = 10 ∧
    (∀ p : ProxyInfo, p.is_proxy = false → (scoreUpgradeability (some p)).1 = 10) ∧
    (∀ p : ProxyInfo, p.is_proxy = true → p.is_upgradeable = false →
      (scoreUpgradeability (some p)).1 = 8) ∧
    (∀ p : ProxyInfo, p.is_proxy = true → p.is_upgradeable = true →
      (scoreUpgradeability (some p)).1 = proxyScores p.proxy_standard) ∧
    proxyScores .eip_1167_minimal = 8 ∧ proxyScores .eip_1967_transparent = 5 ∧
    proxyScores .eip_1822_uups = 4 ∧ proxyScores .beacon_proxy = 4 ∧
    proxyScores .eip_2535_diamond = 3 ∧ proxyScores .custom_proxy = 4 := by
  refine ⟨rfl, ?_, ?_, ?_, rfl, rfl, rfl, rfl, rfl, rfl⟩
  · intro p h1
    obtain ⟨ip, std, impl, up⟩ := p
    simp only at h1
    subst h1
    simp [scoreUpgradeability]
  · intro p h1 h2
    obtain ⟨ip, std, impl, up⟩ := p
    simp only at h1 h2
    subst h1
    subst h2
    simp [scoreUpgradeability]
  · intro p h1 h2
    obtain ⟨ip, std, impl, up⟩ := p
    simp only at h1 h2
    subst h1
    subst h2
    simp [scoreUpgradeability]

/-- C2 witness: the hypothesised cases of the table theorem at concrete
proxy records. -/
theorem upgradeability_score_cases_witness :
    (scoreUpgradeability (some ⟨false, .not_proxy, Option.none, false⟩)).1 = 10 ∧
    (scoreUpgradeability (some ⟨true, .custom_proxy, Option.none, false⟩)).1 = 8 ∧
    (scoreUpgradeability (some ⟨true, .eip_1822_uups, Option.none, true⟩)).1 =
      proxyScores .eip_1822_uups :=
  ⟨upgradeability_score_cases.2.1 _ rfl,
   upgradeability_score_cases.2.2.1 _ rfl rfl,
   upgradeability_score_cases.2.2.2.1 _ rfl rfl⟩

/-! ## C3: is_fully_onchain -/

/-- C3 counterexample: a token whose metadata and image are on-chain but
whose contract metadata is HTTPS-hosted (gated score 2) is reported
fully on-chain, while the claim requires every present component —
including contract metadata — to score 10. -/
theorem fully_onchain_ignores_contract_metadata :
    (analyzePermanence
        (some ⟨⟨.data_uri, Option.none⟩, some ⟨.data_uri, Option.none⟩, Option.none⟩)
        (some ⟨⟨.https, Option.none⟩⟩)).is_fully_onchain = true ∧
    (analyzePermanence
        (some ⟨⟨.data_uri, Option.none⟩, some ⟨.data_uri, Option.none⟩, Option.none⟩)
        (some ⟨⟨.https, Option.none⟩⟩)).contract_metadata_score = 2 ∧
    ¬ ((analyzePermanence
        (some ⟨⟨.data_uri, Option.none⟩, some ⟨.data_uri, Option.none⟩, Option.none⟩)
        (some ⟨⟨.https, Option.none⟩⟩)).is_fully_onchain = true ↔
      ((analyzePermanence
          (some ⟨⟨.data_uri, Option.none⟩, some ⟨.data_uri, Option.none⟩, Option.none⟩)
          (some ⟨⟨.https, Option.none⟩⟩)).metadata_score = 10 ∧
       ((analyzePermanence
          (some ⟨⟨.data_uri, Option.none⟩, some ⟨.data_uri, Option.none⟩, Option.none⟩)
          (some ⟨⟨.https, Option.none⟩⟩)).image_score = 0 ∨
        (analyzePermanence
          (some ⟨⟨.data_uri, Option.none⟩, some ⟨.data_uri, Option.none⟩, Option.none⟩)
          (some ⟨⟨.https, Option.none⟩⟩)).image_score = 10) ∧
       ((analyzePermanence
          (some ⟨⟨.data_uri, Option.none⟩, some ⟨.data_uri, Option.none⟩, Option.none⟩)
          (some ⟨⟨.https, Option.none⟩⟩)).animation_score = 0 ∨
        (analyzePermanence
          (some ⟨⟨.data_uri, Option.none⟩, some ⟨.data_uri, Option.none⟩, Option.none⟩)
          (some ⟨⟨.https, Option.none⟩⟩)).animation_score = 10) ∧
       ((analyzePermanence
          (some ⟨⟨.data_uri, Option.none⟩, some ⟨.data_uri, Option.none⟩, Option.none⟩)
          (some ⟨⟨.https, Option.none⟩⟩)).contract_metadata_score = 0 ∨
        (analyzePermanence
          (some ⟨⟨.data_uri, Option.none⟩, some ⟨.data_uri, Option.none⟩, Option.none⟩)
          (some ⟨⟨.https, Option.none⟩⟩)).contract_metadata_score = 10))) := by
  refine ⟨rfl, rfl, by decide⟩

/-- C3 (amended): `is_fully_onchain` holds iff the metadata score is 10
and the (ungated) image and animation scores are each 0 (absent) or 10;
the contract-metadata component is not consulted. -/
theorem fully_onchain_characterization (dr : Option TokenDataReport)
    (cdr : Option ContractDataReport) :
    (analyzePermanence dr cdr).is_fully_onchain = true ↔
      (getUrlProtocolScore (dr.map (fun r => r.token_uri)) = 10 ∧
       (getUrlProtocolScore (dr.bind (fun r => r.image)) = 0 ∨
        getUrlProtocolScore (dr.bind (fun r => r.image)) = 10) ∧
       (getUrlProtocolScore (dr.bind (fun r => r.animation_url)) = 0 ∨
        getUrlProtocolScore (dr.bind (fun r => r.animation_url)) = 10)) := by
  simp only [analyzePermanence, Bool.and_eq_true, Bool.or_eq_true, decide_eq_true_eq]
  tauto

/-! ## C4: protocol classification is scheme-only -/

/-- C4 counterexample: an HTTPS IPFS-gateway URL and an `*.arweave.*`
HTTPS URL are both classified `https` (score 2) by
`_extract_protocol`, not `ipfs` (6) or `arweave` (8) as the claim
states. -/
theorem protocol_gateway_classification_fails :
    extractProtocol ipfsGatewayExample = .https ∧
    extractProtocol ipfsGatewayExample ≠ .ipfs ∧
    extractProtocol arweaveHostExample = .https ∧
    extractProtocol arweaveHostExample ≠ .arweave ∧
    (extractProtocol ipfsGatewayExample).get_score = 2 := by
  refine ⟨by decide, by decide, by decide, by decide, by decide⟩

/-- C4 (amended): protocol classification depends only on the scheme —
every `https://` URL is `https` (2), `ipfs://` is `ipfs` (6), `ar://` is
`arweave` (8); gateway usage is tracked separately by the substring
heuristic, which does flag the gateway examples. -/
theorem protocol_scheme_only :
    (∀ rest : List Char, extractProtocol (httpsSlashes ++ rest) = .https) ∧
    (∀ rest : List Char, extractProtocol (ipfsSlashes ++ rest) = .ipfs) ∧
    (∀ rest : List Char, extractProtocol (arSlashes ++ rest) = .arweave) ∧
    MediaProtocol.https.get_score = 2 ∧ MediaProtocol.ipfs.get_score = 6 ∧
    MediaProtocol.arweave.get_score = 8 ∧
    isGatewayHeuristic ipfsGatewayExample = true ∧
    isGatewayHeuristic arweaveHostExample = true := by
  exact ⟨fun rest => rfl, fun rest => rfl, fun rest => rfl, rfl, rfl, rfl,
    by decide, by decide⟩

/-! ## C5: dependency minimality -/

/-- C5 counterexample: the parse-error report has an empty
`external_resources` list but `min_protocol_score = 0`, where the claim
demands 10 for every report with an empty list. -/
theorem parse_error_min_score_zero :
    (analyzeSvgContent (.error (("parse error" : String)))).external_resources = [] ∧
    (analyzeSvgContent (.error (("parse error" : String)))).min_protocol_score = 0 ∧
    (analyzeSvgContent (.error (("parse error" : String)))).min_protocol_score ≠ 10 ∧
    (analyzeHtmlContent (.error (("parse error" : String)))).min_protocol_score = 0 ∧
    (analyzeHtmlContent (.error (("parse error" : String)))).external_resources = [] := by
  refine ⟨rfl, rfl, by decide, rfl, rfl⟩

/-- C5 (amended): for reports produced by `_calculate_dependency_score`
(the successful-parse path of both analyzers) the minimum protocol score
is the minimum over the resources, 10 when the list is empty; the
parse-error path instead returns the fixed report with score 0 and an
empty resource list. -/
theorem dependency_min_score_characterization :
    (∀ rs, (calculateDependencyScore rs).min_protocol_score = specMinProtocolScore rs ∧
      (calculateDependencyScore rs).external_resources = rs) ∧
    (∀ rs, analyzeSvgContent (.ok rs) = calculateDependencyScore rs ∧
      analyzeHtmlContent (.ok rs) = calculateDependencyScore rs) ∧
    (∀ e : String, (analyzeSvgContent (.error e)).min_protocol_score = 0 ∧
      (analyzeSvgContent (.error e)).external_resources = [] ∧
      (analyzeSvgContent (.error e)).is_fully_onchain = false ∧
      (analyzeHtmlContent (.error e)).min_protocol_score = 0 ∧
      (analyzeHtmlContent (.error e)).external_resources = []) := by
  refine ⟨fun rs => ⟨calc_min_eq_spec rs, ?_⟩, fun rs => ⟨rfl, rfl⟩,
    fun e => ⟨rfl, rfl, rfl, rfl, rfl⟩⟩
  cases rs with
  | nil => rfl
  | cons r rs =>
    unfold calculateDependencyScore
    simp only [List.isEmpty_cons, Bool.false_eq_true, if_false]
    rcases hst : (r :: rs).foldl minScanStep (Option.none, Option.none) with ⟨f, snd⟩
    have hf : f ≠ Option.none := by
      have hgo := minScan_go rs r.url_info.protocol.get_score (some r.url_info.protocol)
      rw [List.foldl_cons] at hst
      have h0 : minScanStep (Option.none, Option.none) r =
          (some r.url_info.protocol.get_score, some r.url_info.protocol) := rfl
      rw [h0] at hst
      rw [hst] at hgo
      simp only at hgo
      rw [hgo]
      simp
    rcases f with _ | m
    · exact absurd rfl hf
    · rfl

end NftInspector

namespace NftInspector

/-! ## C1: trustlessness overall score -/

theorem scoreAccessControl_ens_irrelevant (ho hr : Bool)
    (gt : Option GovernanceType) (act : Option AccessControlType)
    (e1 e2 : Option String) (td : Option Int) :
    scoreAccessControl (some ⟨ho, hr, gt, act, e1, e2, td⟩) =
      scoreAccessControl (some ⟨ho, hr, gt, act, Option.none, Option.none, Option.none⟩) :=
  rfl

theorem scoreGovernanceType_ens_irrelevant (ho hr : Bool)
    (gt : Option GovernanceType) (act : Option AccessControlType)
    (e1 e2 : Option String) (td : Option Int) :
    scoreGovernanceType (some ⟨ho, hr, gt, act, e1, e2, td⟩) =
      scoreGovernanceType (some ⟨ho, hr, gt, act, Option.none, Option.none, Option.none⟩) :=
  rfl

theorem scoreUpgradeability_addr_irrelevant (ip : Bool) (std : ProxyStandard)
    (impl : Option (List Char)) (up : Bool) :
    scoreUpgradeability (some ⟨ip, std, impl, up⟩) =
      scoreUpgradeability (some ⟨ip, std, Option.none, up⟩) :=
  rfl

theorem scoreAccessControl_nonneg (info : Option AccessControlInfo) :
    0 ≤ (scoreAccessControl info).1 := by
  match info with
  | Option.none => decide
  | some i =>
    obtain ⟨ho, hr, gt, act, e1, e2, td⟩ := i
    rw [scoreAccessControl_ens_irrelevant]
    revert ho hr gt act
    decide

theorem scoreGovernanceType_nonneg (info : Option AccessControlInfo) :
    0 ≤ scoreGovernanceType info := by
  match info with
  | Option.none => decide
  | some i =>
    obtain ⟨ho, hr, gt, act, e1, e2, td⟩ := i
    rw [scoreGovernanceType_ens_irrelevant]
    revert ho hr gt act
    decide

theorem scoreUpgradeability_nonneg (pi : Option ProxyInfo) :
    0 ≤ (scoreUpgradeability pi).1 := by
  match pi with
  | Option.none => decide
  | some p =>
    obtain ⟨ip, std, impl, up⟩ := p
    rw [scoreUpgradeability_addr_irrelevant]
    revert ip std up
    decide

theorem pyRoundTenths_eq_roundHalfEven (n : Int) :
    pyRoundTenths n = roundHalfEven ((n : ℚ) / 10) := by
  have hq : ⌊((n : ℚ) / 10)⌋ = n / 10 := by
    have h := Rat.floor_intCast_div_natCast n 10
    push_cast at h
    convert h using 2
  have hmod : 10 * (n / 10) + n % 10 = n := by omega
  have hmodQ : (10 : ℚ) * ((n / 10 : Int) : ℚ) + ((n % 10 : Int) : ℚ) = (n : ℚ) := by
    exact_mod_cast hmod
  have hfrac : (n : ℚ) / 10 - ((n / 10 : Int) : ℚ) = ((n % 10 : Int) : ℚ) / 10 := by
    field_simp
    linarith [hmodQ]
  have hlt : ((((n % 10 : Int)) : ℚ) / 10 < 1/2) ↔ (n % 10 < 5) := by
    rw [div_lt_iff₀ (by norm_num)]
    constructor
    · intro h
      exact_mod_cast (by linarith : ((n % 10 : Int) : ℚ) < 5)
    · intro h
      have : ((n % 10 : Int) : ℚ) < 5 := by exact_mod_cast h
      linarith
  have hgt : (1/2 < (((n % 10 : Int)) : ℚ) / 10) ↔ (5 < n % 10) := by
    rw [lt_div_iff₀ (by norm_num)]
    constructor
    · intro h
      exact_mod_cast (by linarith : (5 : ℚ) < ((n % 10 : Int) : ℚ))
    · intro h
      have : (5 : ℚ) < ((n % 10 : Int) : ℚ) := by exact_mod_cast h
      linarith
  simp only [pyRoundTenths, roundHalfEven, hq, hfrac, hlt, hgt]

/-- C1 counterexample: with a timelock owner and no proxy the code's
sub-scores are access 8, upgradeability 10, governance 7; the code
computes overall 8 = round(0.5·8 + 0.3·10 + 0.2·7), while the claim's
formula round(0.7·8 + 0.3·10) gives 9. -/
theorem trustlessness_claim_formula_fails :
    (analyzeTrustlessness
        (some ⟨true, false, some .timelock, Option.none, Option.none, Option.none, Option.none⟩)
        Option.none).access_control_score = 8 ∧
    (analyzeTrustlessness
        (some ⟨true, false, some .timelock, Option.none, Option.none, Option.none, Option.none⟩)
        Option.none).upgradeability_score = 10 ∧
    (analyzeTrustlessness
        (some ⟨true, false, some .timelock, Option.none, Option.none, Option.none, Option.none⟩)
        Option.none).governance_score = 7 ∧
    (analyzeTrustlessness
        (some ⟨true, false, some .timelock, Option.none, Option.none, Option.none, Option.none⟩)
        Option.none).overall_score = 8 ∧
    roundHalfEven ((7/10 : ℚ) * 8 + (3/10 : ℚ) * 10) = 9 ∧
    (analyzeTrustlessness
        (some ⟨true, false, some .timelock, Option.none, Option.none, Option.none, Option.none⟩)
        Option.none).overall_score ≠
      roundHalfEven ((7/10 : ℚ) * 8 + (3/10 : ℚ) * 10) := by
  have h9 : roundHalfEven ((7/10 : ℚ) * 8 + (3/10 : ℚ) * 10) = 9 := by
    have hval : ((7/10 : ℚ) * 8 + (3/10 : ℚ) * 10) = 43/5 := by norm_num
    have hfl : ⌊(43/5 : ℚ)⌋ = 8 := by
      rw [Int.floor_eq_iff]
      push_cast
      norm_num
    have h1 : ¬ ((43/5 : ℚ) - ((8 : Int) : ℚ) < 1/2) := by push_cast; norm_num
    have h2 : (1/2 : ℚ) < (43/5 : ℚ) - ((8 : Int) : ℚ) := by push_cast; norm_num
    simp only [roundHalfEven, hval, hfl, if_neg h1, if_pos h2]
    norm_num
  refine ⟨rfl, rfl, rfl, rfl, h9, ?_⟩
  rw [h9]
  decide

/-- C1 (amended): the trustlessness overall score is
round(0.5 × access_control_score + 0.3 × upgradeability_score +
0.2 × governance_score), with round-half-to-even. -/
theorem trustlessness_overall_weighted_sum (info : Option AccessControlInfo)
    (pi : Option ProxyInfo) :
    (analyzeTrustlessness info pi).overall_score =
      roundHalfEven ((1/2 : ℚ) * ((analyzeTrustlessness info pi).access_control_score : ℚ) +
        (3/10 : ℚ) * ((analyzeTrustlessness info pi).upgradeability_score : ℚ) +
        (1/5 : ℚ) * ((analyzeTrustlessness info pi).governance_score : ℚ)) := by
  have ha := scoreAccessControl_nonneg info
  have hg := scoreGovernanceType_nonneg info
  have hu := scoreUpgradeability_nonneg pi
  show pyRoundTenths (5 * (scoreAccessControl info).1 + 3 * (scoreUpgradeability pi).1 +
      2 * scoreGovernanceType info) =
    roundHalfEven ((1/2 : ℚ) * ((scoreAccessControl info).1 : ℚ) +
      (3/10 : ℚ) * ((scoreUpgradeability pi).1 : ℚ) +
      (1/5 : ℚ) * ((scoreGovernanceType info) : ℚ))
  rw [pyRoundTenths_eq_roundHalfEven]
  congr 1
  push_cast
  ring

end NftInspector

namespace NftInspector

/-! ## C6: the unguarded get_block call in the ERC-4907 compliance path -/

/-- C6: with an ERC-4907 rental check whose `userOf`/`userExpires` calls
succeed with a non-zero user, a failing `eth.get_block('latest')`
(compliance_checker.py line 222, outside any `try`) propagates out of
`inspect_token` instead of being absorbed into the sub-record: no
`TokenInfo` is returned. -/
theorem inspect_token_block_timestamp_error_escapes :
    inspectToken
      { erc4907_supported := true
        user_result :=
          RpcResult.success_result (("0x0000000000000000000000000000000000000001" : String))
        expires_result := RpcResult.success_result (99 : Int)
        latest_block_timestamp := Except.error (("network error" : String)) } =
      Except.error (("network error" : String)) := by
  rfl

/-! ## C7: per-call error isolation in batches -/

/-- C7: a batch call returns one result per call in input order; result
`i` is a success exactly when call `i` succeeded, and a failure exactly
when it raised — in particular `[ok, revert, ok]` maps to
`[Success, Failure, Success]`. -/
theorem batch_call_error_isolation {α : Type}
    (handle : PyException → RpcErrorType × String)
    (calls : List (Except PyException α)) :
    ((asyncBatchCallContractFunctions handle calls).length = calls.length) ∧
    (∀ i : Nat, ∀ c, calls[i]? = some c →
      ∃ r, (asyncBatchCallContractFunctions handle calls)[i]? = some r ∧
        r.success = c.isOk) ∧
    (∀ (r1 r3 : α) (e : PyException),
      asyncBatchCallContractFunctions handle [.ok r1, .error e, .ok r3] =
        [RpcResult.success_result r1,
         RpcResult.error_result (handle e).1 (handle e).2,
         RpcResult.success_result r3]) := by
  refine ⟨by simp [asyncBatchCallContractFunctions], ?_, fun r1 r3 e => rfl⟩
  intro i c hc
  refine ⟨asyncCallContractFunction handle c, ?_, ?_⟩
  · simp [asyncBatchCallContractFunctions, List.getElem?_map, hc]
  · cases c <;> rfl

/-- C7 witness: the isolation theorem applied to the concrete batch
`[ok 1, raise, ok 3]` at index 1. -/
theorem batch_call_error_isolation_witness :
    ∃ r, (asyncBatchCallContractFunctions
        (fun e => (RpcErrorType.unknown_error, e.msg))
        [Except.ok (1 : Nat), Except.error ⟨("boom")⟩, Except.ok 3])[1]? = some r ∧
      r.success = (Except.error ⟨("boom")⟩ : Except PyException Nat).isOk :=
  (batch_call_error_isolation (fun e => (RpcErrorType.unknown_error, e.msg))
    [Except.ok (1 : Nat), Except.error ⟨("boom")⟩, Except.ok 3]).2.1
    1 (Except.error ⟨("boom")⟩) rfl

/-! ## C9: EIP-1167 minimal proxy bytecode pattern -/

theorem bytesToHex_append (a b : List Nat) :
    bytesToHex (a ++ b) = bytesToHex a ++ bytesToHex b := by
  induction a with
  | nil => rfl
  | cons x xs ih => simp [bytesToHex, ih]

theorem bytesToHex_length (l : List Nat) :
    (bytesToHex l).length = 2 * l.length := by
  induction l with
  | nil => rfl
  | cons x xs ih =>
    simp only [bytesToHex, List.length_cons, ih]
    omega

/-- C9: a 45-byte runtime bytecode of the form
`363d3d373d3d3d363d73 ‖ impl (20 bytes) ‖ 5af43d82803e903d91602b57fd5bf3`
is classified as an EIP-1167 minimal proxy, not upgradeable, with the
implementation address extracted from bytes 10–29; any bytecode longer
than 45 bytes does not match and falls through to the next detection
step. -/
theorem eip1167_bytecode_detection (impl : List Nat) (h : impl.length = 20) :
    checkMinimalProxyBytecode (bytesToHex (eip1167PreBytes ++ impl ++ eip1167SufBytes)) =
      some { is_proxy := true
             proxy_standard := .eip_1167_minimal
             implementation_address := some (bytesToHex impl)
             is_upgradeable := false } ∧
    (∀ code : List Nat, 45 < code.length →
      checkMinimalProxyBytecode (bytesToHex code) = Option.none) := by
  constructor
  · have hpre : bytesToHex eip1167PreBytes = eip1167Pre := rfl
    have hsuf : bytesToHex eip1167SufBytes = eip1167Suf := rfl
    have hsplit : bytesToHex (eip1167PreBytes ++ impl ++ eip1167SufBytes) =
        eip1167Pre ++ (bytesToHex impl ++ eip1167Suf) := by
      rw [List.append_assoc, bytesToHex_append, bytesToHex_append, hpre, hsuf]
    have hlenImpl : (bytesToHex impl).length = 40 := by
      rw [bytesToHex_length, h]
    have hlenPre : eip1167Pre.length = 20 := rfl
    have hlenSuf : eip1167Suf.length = 30 := rfl
    have h90 : (eip1167Pre ++ (bytesToHex impl ++ eip1167Suf)).length = 90 := by
      simp only [List.length_append, hlenImpl, hlenPre, hlenSuf]
    have hpfx : eip1167Pre.isPrefixOf (eip1167Pre ++ (bytesToHex impl ++ eip1167Suf)) = true :=
      List.isPrefixOf_iff_prefix.mpr (List.prefix_append _ _)
    have hsfx : eip1167Suf.isSuffixOf (eip1167Pre ++ (bytesToHex impl ++ eip1167Suf)) = true := by
      refine List.isSuffixOf_iff_suffix.mpr ?_
      rw [← List.append_assoc]
      exact List.suffix_append _ _
    have hdrop : ((eip1167Pre ++ (bytesToHex impl ++ eip1167Suf)).drop 20).take 40 =
        bytesToHex impl := by
      rw [show (20 : Nat) = eip1167Pre.length from rfl, List.drop_left,
        ← hlenImpl, List.take_left]
    rw [hsplit]
    simp [checkMinimalProxyBytecode, h90, hpfx, hsfx, hdrop]
  · intro code hc
    have hl := bytesToHex_length code
    have hne : ¬ ((bytesToHex code).length = 90) := by omega
    simp [checkMinimalProxyBytecode, hne]

/-- C9 witness: the detection theorem at an all-zero 20-byte
implementation and an all-zero 46-byte non-matching bytecode. -/
theorem eip1167_bytecode_detection_witness :
    checkMinimalProxyBytecode
        (bytesToHex (eip1167PreBytes ++ List.replicate 20 0 ++ eip1167SufBytes)) =
      some { is_proxy := true
             proxy_standard := .eip_1167_minimal
             implementation_address := some (bytesToHex (List.replicate 20 0))
             is_upgradeable := false } ∧
    checkMinimalProxyBytecode (bytesToHex (List.replicate 46 0)) = Option.none :=
  ⟨(eip1167_bytecode_detection (List.replicate 20 0) (by decide)).1,
   (eip1167_bytecode_detection (List.replicate 20 0) (by decide)).2
     (List.replicate 46 0) (by decide)⟩

/-! ## C10: the data-URI gate of the resolver -/

/-- C10: the resolver accepts a `data:` URI only with the exact
`data:application/json;base64,` prefix — every other `data:` URI raises,
and `fetch_metadata` consequently yields no metadata for it — while the
media analyzer's general data-URI parser still classifies such URIs
(shown for `data:text/plain,hello`). -/
theorem data_uri_resolver_gate (uri : List Char)
    (hdata : dataCanHandle uri = true)
    (hnot : jsonB64Head.isPrefixOf uri = false) :
    uriResolverResolve uri =
      .error (("Only base64 encoded JSON data URIs are supported" : String)) ∧
    fetchMetadata uri = Option.none ∧
    dataUriUtilsClassify plainDataUriExample =
      .ok { media_type := String.toList ("text/plain"), encoding := .plain } ∧
    fetchMetadata plainDataUriExample = Option.none := by
  have h1 : uriResolverResolve uri =
      .error (("Only base64 encoded JSON data URIs are supported" : String)) := by
    simp [uriResolverResolve, dataUriParserParse, hdata, hnot]
  refine ⟨h1, ?_, ?_, ?_⟩
  · unfold fetchMetadata
    rw [h1]
  · rfl
  · rfl

/-- C10 witness: the gate theorem applied to `data:text/plain,hello`
itself. -/
theorem data_uri_resolver_gate_witness :
    uriResolverResolve plainDataUriExample =
      .error (("Only base64 encoded JSON data URIs are supported" : String)) ∧
    fetchMetadata plainDataUriExample = Option.none ∧
    dataUriUtilsClassify plainDataUriExample =
      .ok { media_type := String.toList ("text/plain"), encoding := .plain } ∧
    fetchMetadata plainDataUriExample = Option.none :=
  data_uri_resolver_gate plainDataUriExample (by decide) (by decide)

end NftInspector

namespace NftInspector

/-! ## C8: ERC-1155 placeholder substitution — helper lemmas -/

theorem pyReplaceGo_not_infix (pat rep : List Char) :
    ∀ fuel s, s.length ≤ fuel → ¬ pat <:+: s → pyReplaceGo fuel s pat rep = s := by
  intro fuel
  induction fuel with
  | zero => intro s _ _; rfl
  | succ fuel ih =>
    intro s hlen hinf
    simp only [pyReplaceGo]
    rw [if_neg]
    · cases s with
      | nil => rfl
      | cons c cs =>
        have hcs : ¬ pat <:+: cs := fun h => hinf (List.infix_cons h)
        show c :: pyReplaceGo fuel cs pat rep = c :: cs
        rw [ih cs (by simpa using Nat.le_of_succ_le_succ (by simpa using hlen)) hcs]
    · rintro ⟨h1, h2⟩
      exact hinf (List.isPrefixOf_iff_prefix.mp h2).isInfix

theorem pyReplace_of_not_infix (s pat rep : List Char) (h : ¬ pat <:+: s) :
    pyReplace s pat rep = s :=
  pyReplaceGo_not_infix pat rep s.length s (Nat.le_refl _) h

theorem infix_append_right {p a b : List Char} {c : Char}
    (hp : p.head? = some c) (hc : c ∉ a) (h : p <:+: a ++ b) : p <:+: b := by
  induction a with
  | nil => simpa using h
  | cons x xs ih =>
    rw [List.cons_append, List.infix_cons_iff] at h
    rcases h with h | h
    · cases p with
      | nil => simp at hp
      | cons p0 pt =>
        rw [List.cons_prefix_cons] at h
        simp only [List.head?_cons, Option.some_inj] at hp
        exact absurd (by rw [← hp, h.1]; exact List.mem_cons_self x xs) hc
    · exact ih (fun hm => hc (List.mem_cons_of_mem x hm)) h

theorem pyReplaceGo_prefix_back (pat rep : List Char)
    (hrep4 : 4 ≤ rep.length) (hrb : ('\x7d') ∉ rep) :
    ∀ fuel t b, t.length ≤ fuel → b ≠ [] → [('\x7d')] <:+ b → b.length ≤ 4 →
      b <+: pyReplaceGo fuel t pat rep → b <+: t := by
  intro fuel
  induction fuel with
  | zero => intro t b _ _ _ _ hb; exact hb
  | succ fuel ih =>
    intro t b hlen hbne hbsuf hble hb
    by_cases hcond : pat ≠ [] ∧ pat.isPrefixOf t
    · simp only [pyReplaceGo] at hb
      rw [if_pos hcond] at hb
      have hbrep : b <+: rep :=
        (List.isPrefix_append_of_length (le_trans hble hrep4)).mp hb
      have : ('\x7d') ∈ b := hbsuf.subset (by simp)
      exact absurd (hbrep.subset this) hrb
    · simp only [pyReplaceGo] at hb
      rw [if_neg hcond] at hb
      cases t with
      | nil =>
        simp only at hb
        exact absurd (List.prefix_nil.mp hb) hbne
      | cons c cs =>
        simp only at hb
        cases b with
        | nil => exact absurd rfl hbne
        | cons b0 b1 =>
          rw [List.cons_prefix_cons] at hb
          obtain ⟨hb0, hb1⟩ := hb
          by_cases hb1nil : b1 = []
          · subst hb1nil
            have : ('\x7d') :: ([] : List Char) = [b0] :=
              hbsuf.eq_of_length (by simp)
            have hb0eq : b0 = ('\x7d') := by
              simpa using this.symm
            subst hb0
            simp
          · have hsuf1 : [('\x7d')] <:+ b1 := by
              rcases List.suffix_cons_iff.mp hbsuf with h | h
              · exact absurd (by simpa using congrArg List.length h) (by simp [hb1nil])
              · exact h
            have hlen1 : b1.length ≤ 4 := by
              have := hble
              simp only [List.length_cons] at this
              omega
            have hcs : b1 <+: cs := by
              refine ih cs b1 ?_ hb1nil hsuf1 hlen1 hb1
              simp only [List.length_cons] at hlen
              omega
            rw [hb0]
            exact (List.cons_prefix_cons).mpr ⟨rfl, hcs⟩

theorem pyReplaceGo_not_infix_self (pat rep : List Char)
    (hhead : pat.head? = some ('\x7b')) (hlast : [('\x7d')] <:+ pat)
    (hlenlo : 2 ≤ pat.length) (hlenhi : pat.length ≤ 4)
    (hrep4 : 4 ≤ rep.length) (hlb : ('\x7b') ∉ rep) (hrb : ('\x7d') ∉ rep) :
    ∀ fuel s, s.length ≤ fuel → ¬ pat <:+: pyReplaceGo fuel s pat rep := by
  have hpatne : pat ≠ [] := by
    cases pat
    · simp at hhead
    · simp
  intro fuel
  induction fuel with
  | zero =>
    intro s hlen hinf
    have : s = [] := List.length_eq_zero.mp (Nat.le_zero.mp hlen)
    subst this
    simp only [pyReplaceGo] at hinf
    exact hpatne (List.eq_nil_of_infix_nil hinf)
  | succ fuel ih =>
    intro s hlen hinf
    by_cases hcond : pat ≠ [] ∧ pat.isPrefixOf s
    · simp only [pyReplaceGo] at hinf
      rw [if_pos hcond] at hinf
      have hR : pat <:+: pyReplaceGo fuel (s.drop pat.length) pat rep :=
        infix_append_right hhead hlb hinf
      have hslen : 1 ≤ s.length := by
        have hp := List.isPrefixOf_iff_prefix.mp hcond.2
        have h1 := hp.length_le
        have h2 := List.length_pos.mpr hcond.1
        omega
      have hplen : 1 ≤ pat.length := List.length_pos.mpr hcond.1
      refine ih (s.drop pat.length) ?_ hR
      simp only [List.length_drop]
      omega
    · simp only [pyReplaceGo] at hinf
      rw [if_neg hcond] at hinf
      cases s with
      | nil =>
        simp only at hinf
        exact hpatne (List.eq_nil_of_infix_nil hinf)
      | cons c cs =>
        simp only at hinf
        rcases List.infix_cons_iff.mp hinf with h | h
        · cases pat with
          | nil => exact hpatne rfl
          | cons p0 pt =>
            simp only [List.head?_cons, Option.some_inj] at hhead
            rw [List.cons_prefix_cons] at h
            obtain ⟨hc, hpt⟩ := h
            have hptne : pt ≠ [] := by
              intro hx
              subst hx
              simp at hlenlo
            have hptsuf : [('\x7d')] <:+ pt := by
              rcases List.suffix_cons_iff.mp hlast with hx | hx
              · exact absurd (by simpa using congrArg List.length hx)
                  (by simp [hptne])
              · exact hx
            have hptlen : pt.length ≤ 4 := by
              simp only [List.length_cons] at hlenhi
              omega
            have hptcs : pt <+: cs := by
              refine pyReplaceGo_prefix_back (p0 :: pt) rep hrep4 hrb fuel cs pt ?_
                hptne hptsuf hptlen hpt
              simp only [List.length_cons] at hlen
              omega
            have : (p0 :: pt).isPrefixOf (c :: cs) = true := by
              refine List.isPrefixOf_iff_prefix.mpr ?_
              rw [List.cons_prefix_cons]
              exact ⟨hc, hptcs⟩
            exact hcond ⟨hpatne, this⟩
        · refine ih cs ?_ h
          simp only [List.length_cons] at hlen
          omega

theorem pyReplaceGo_not_infix_other (pat pat2 rep : List Char)
    (hhead : pat2.head? = some ('\x7b')) (hlast : [('\x7d')] <:+ pat2)
    (hlenlo : 2 ≤ pat2.length) (hlenhi : pat2.length ≤ 4)
    (hrep4 : 4 ≤ rep.length) (hlb : ('\x7b') ∉ rep) (hrb : ('\x7d') ∉ rep) :
    ∀ fuel s, s.length ≤ fuel → ¬ pat2 <:+: s →
      ¬ pat2 <:+: pyReplaceGo fuel s pat rep := by
  intro fuel
  induction fuel with
  | zero => intro s _ hs; exact hs
  | succ fuel ih =>
    intro s hlen hs hinf
    by_cases hcond : pat ≠ [] ∧ pat.isPrefixOf s
    · simp only [pyReplaceGo] at hinf
      rw [if_pos hcond] at hinf
      have hR : pat2 <:+: pyReplaceGo fuel (s.drop pat.length) pat rep :=
        infix_append_right hhead hlb hinf
      have hslen : 1 ≤ s.length := by
        have hp := List.isPrefixOf_iff_prefix.mp hcond.2
        have h1 := hp.length_le
        have h2 := List.length_pos.mpr hcond.1
        omega
      have hplen : 1 ≤ pat.length := List.length_pos.mpr hcond.1
      refine ih (s.drop pat.length) (by simp only [List.length_drop]; omega) ?_ hR
      intro hx
      exact hs (hx.trans (List.drop_suffix pat.length s).isInfix)
    · simp only [pyReplaceGo] at hinf
      rw [if_neg hcond] at hinf
      cases s with
      | nil =>
        simp only at hinf
        have : pat2 ≠ [] := by
          cases pat2
          · simp at hhead
          · simp
        exact this (List.eq_nil_of_infix_nil hinf)
      | cons c cs =>
        simp only at hinf
        rcases List.infix_cons_iff.mp hinf with h | h
        · cases pat2 with
          | nil => simp at hhead
          | cons p0 pt =>
            simp only [List.head?_cons, Option.some_inj] at hhead
            rw [List.cons_prefix_cons] at h
            obtain ⟨hc, hpt⟩ := h
            have hptne : pt ≠ [] := by
              intro hx
              subst hx
              simp at hlenlo
            have hptsuf : [('\x7d')] <:+ pt := by
              rcases List.suffix_cons_iff.mp hlast with hx | hx
              · exact absurd (by simpa using congrArg List.length hx)
                  (by simp [hptne])
              · exact hx
            have hptlen : pt.length ≤ 4 := by
              simp only [List.length_cons] at hlenhi
              omega
            have hptcs : pt <+: cs := by
              refine pyReplaceGo_prefix_back pat rep hrep4 hrb fuel cs pt ?_
                hptne hptsuf hptlen hpt
              simp only [List.length_cons] at hlen
              omega
            refine hs ?_
            refine List.IsPrefix.isInfix ?_
            rw [List.cons_prefix_cons]
            exact ⟨hc, hptcs⟩
        · refine ih cs ?_ (fun hx => hs (List.infix_cons hx)) h
          simp only [List.length_cons] at hlen
          omega

end NftInspector

namespace NftInspector

/-! ## C8: hexadecimal rendering lemmas -/

theorem digitChar_lower_hex : ∀ m < 16, isLowerHexDigit (Nat.digitChar m) = true := by
  decide

theorem digitChar_val : ∀ m < 16, hexCharVal (Nat.digitChar m) = m := by
  decide

theorem toHexDigitsGo_hex :
    ∀ fuel n, n < fuel → ∀ c ∈ toHexDigitsGo fuel n, isLowerHexDigit c = true := by
  intro fuel
  induction fuel with
  | zero => intro n hn; omega
  | succ fuel ih =>
    intro n hn c hc
    by_cases h16 : n < 16
    · simp only [toHexDigitsGo, if_pos h16, List.mem_singleton] at hc
      subst hc
      exact digitChar_lower_hex n h16
    · simp only [toHexDigitsGo, if_neg h16, List.mem_append, List.mem_singleton] at hc
      rcases hc with hc | hc
      · refine ih (n / 16) ?_ c hc
        have := Nat.div_lt_self (by omega : 0 < n) (by omega : 1 < 16)
        omega
      · subst hc
        exact digitChar_lower_hex (n % 16) (Nat.mod_lt n (by omega))

theorem toHexDigitsGo_length_le :
    ∀ k fuel n, n < fuel → n < 16 ^ k → 1 ≤ k →
      (toHexDigitsGo fuel n).length ≤ k := by
  intro k
  induction k with
  | zero => intro fuel n _ _ hk; omega
  | succ k ih =>
    intro fuel n hfuel hpow _
    cases fuel with
    | zero => omega
    | succ fuel =>
      by_cases h16 : n < 16
      · simp only [toHexDigitsGo, if_pos h16, List.length_singleton]
        omega
      · simp only [toHexDigitsGo, if_neg h16, List.length_append,
          List.length_singleton]
        have hk1 : 1 ≤ k := by
          by_contra hk0
          have : k = 0 := by omega
          subst this
          norm_num at hpow
          omega
        have hdivfuel : n / 16 < fuel := by
          have := Nat.div_lt_self (by omega : 0 < n) (by omega : 1 < 16)
          omega
        have hdivpow : n / 16 < 16 ^ k := by
          have h1 : n < 16 ^ k * 16 := by
            have : (16 : Nat) ^ (k + 1) = 16 ^ k * 16 := pow_succ 16 k
            omega
          exact Nat.div_lt_of_lt_mul (by omega)
        have := ih fuel (n / 16) hdivfuel hdivpow hk1
        omega

theorem toHexDigitsGo_foldl :
    ∀ fuel n acc, n < fuel →
      (toHexDigitsGo fuel n).foldl (fun a c => 16 * a + hexCharVal c) acc =
        acc * 16 ^ (toHexDigitsGo fuel n).length + n := by
  intro fuel
  induction fuel with
  | zero => intro n acc hn; omega
  | succ fuel ih =>
    intro n acc hn
    by_cases h16 : n < 16
    · simp only [toHexDigitsGo, if_pos h16, List.foldl_cons, List.foldl_nil,
        List.length_singleton, pow_one, digitChar_val n h16]
      ring
    · simp only [toHexDigitsGo, if_neg h16, List.foldl_append, List.foldl_cons,
        List.foldl_nil, List.length_append, List.length_singleton]
      rw [ih (n / 16) acc (by
        have := Nat.div_lt_self (by omega : 0 < n) (by omega : 1 < 16)
        omega)]
      rw [digitChar_val (n % 16) (Nat.mod_lt n (by omega))]
      have hdm : 16 * (n / 16) + n % 16 = n := Nat.div_add_mod n 16
      generalize (toHexDigitsGo fuel (n / 16)).length = L
      rw [pow_succ]
      calc 16 * (acc * 16 ^ L + n / 16) + n % 16
          = acc * (16 ^ L * 16) + (16 * (n / 16) + n % 16) := by ring
        _ = acc * (16 ^ L * 16) + n := by rw [hdm]

theorem format064x_hex (n : Nat) :
    ∀ c ∈ format064x n, isLowerHexDigit c = true := by
  intro c hc
  simp only [format064x, List.mem_append, List.mem_replicate] at hc
  rcases hc with ⟨_, hc⟩ | hc
  · subst hc
    decide
  · exact toHexDigitsGo_hex (n + 1) n (Nat.lt_succ_self n) c hc

theorem format064x_no_lb (n : Nat) : ('\x7b') ∉ format064x n := by
  intro h
  have := format064x_hex n _ h
  simp [isLowerHexDigit] at this

theorem format064x_no_rb (n : Nat) : ('\x7d') ∉ format064x n := by
  intro h
  have := format064x_hex n _ h
  simp [isLowerHexDigit] at this

theorem format064x_len_ge (n : Nat) : 64 ≤ (format064x n).length := by
  simp only [format064x, List.length_append, List.length_replicate]
  omega

theorem format064x_length (n : Nat) (hn : n < 2 ^ 256) :
    (format064x n).length = 64 := by
  have hle : (toHexDigits n).length ≤ 64 := by
    refine toHexDigitsGo_length_le 64 (n + 1) n (Nat.lt_succ_self n) ?_ (by omega)
    have : (16 : Nat) ^ 64 = 2 ^ 256 := by norm_num
    omega
  simp only [format064x, List.length_append, List.length_replicate]
  omega

theorem replicate_zero_foldl : ∀ k : Nat,
    (List.replicate k ('0')).foldl (fun a c => 16 * a + hexCharVal c) 0 = 0 := by
  intro k
  induction k with
  | zero => rfl
  | succ k ih => simpa [List.replicate_succ, hexCharVal] using ih

theorem fromHexDigits_format064x (n : Nat) : fromHexDigits (format064x n) = n := by
  unfold fromHexDigits format064x
  rw [List.foldl_append, replicate_zero_foldl]
  have := toHexDigitsGo_foldl (n + 1) n 0 (Nat.lt_succ_self n)
  simpa using this

end NftInspector

namespace NftInspector

/-! ## C8: the substitution theorem -/

/-- C8: for every URI and token id below 2^256 (a uint256), the
substituted URI is the result of replacing every `\x7bid\x7d` and
`\x7bID\x7d` occurrence by `format(id, '064x')` — a 64-character string
of lowercase hex digits denoting the token id — after which neither
placeholder occurs any more; and `fetch_token_and_contract_uri` hands
exactly this substituted URI to resolution, applying the substitution
once. -/
theorem erc1155_id_substitution (uri : List Char) (n : Nat) (hn : n < 2 ^ 256) :
    substituteErc1155Id uri n =
      pyReplace (pyReplace uri idLowerPat (format064x n)) idUpperPat (format064x n) ∧
    (format064x n).length = 64 ∧
    (∀ c ∈ format064x n, isLowerHexDigit c = true) ∧
    fromHexDigits (format064x n) = n ∧
    ¬ idLowerPat <:+: substituteErc1155Id uri n ∧
    ¬ idUpperPat <:+: substituteErc1155Id uri n ∧
    (∀ contractRes : RpcResult (List Char), uri ≠ [] →
      fetchTokenAndContractUri .erc1155 n (RpcResult.success_result uri) contractRes =
        [{ RpcResult.success_result uri with
            result := some (substituteErc1155Id uri n) },
         contractRes]) := by
  have hrep4 : 4 ≤ (format064x n).length :=
    le_trans (by omega) (format064x_len_ge n)
  have hlb := format064x_no_lb n
  have hrb := format064x_no_rb n
  have hheadL : idLowerPat.head? = some ('\x7b') := rfl
  have hheadU : idUpperPat.head? = some ('\x7b') := rfl
  have hlastL : [('\x7d')] <:+ idLowerPat := ⟨[('\x7b'), ('i'), ('d')], rfl⟩
  have hlastU : [('\x7d')] <:+ idUpperPat := ⟨[('\x7b'), ('I'), ('D')], rfl⟩
  have heq : substituteErc1155Id uri n =
      pyReplace (pyReplace uri idLowerPat (format064x n)) idUpperPat (format064x n) := by
    unfold substituteErc1155Id
    by_cases h : ¬ idLowerPat <:+: uri ∧ ¬ idUpperPat <:+: uri
    · rw [if_pos h, pyReplace_of_not_infix _ _ _ h.1, pyReplace_of_not_infix _ _ _ h.2]
    · rw [if_neg h]
  have hselfL : ¬ idLowerPat <:+: pyReplace uri idLowerPat (format064x n) :=
    pyReplaceGo_not_infix_self idLowerPat (format064x n) hheadL hlastL
      (by decide) (by decide) hrep4 hlb hrb uri.length uri (Nat.le_refl _)
  have hfinL : ¬ idLowerPat <:+:
      pyReplace (pyReplace uri idLowerPat (format064x n)) idUpperPat (format064x n) :=
    pyReplaceGo_not_infix_other idUpperPat idLowerPat (format064x n) hheadL hlastL
      (by decide) (by decide) hrep4 hlb hrb
      (pyReplace uri idLowerPat (format064x n)).length _ (Nat.le_refl _) hselfL
  have hfinU : ¬ idUpperPat <:+:
      pyReplace (pyReplace uri idLowerPat (format064x n)) idUpperPat (format064x n) :=
    pyReplaceGo_not_infix_self idUpperPat (format064x n) hheadU hlastU
      (by decide) (by decide) hrep4 hlb hrb
      (pyReplace uri idLowerPat (format064x n)).length _ (Nat.le_refl _)
  refine ⟨heq, format064x_length n hn, format064x_hex n, fromHexDigits_format064x n,
    ?_, ?_, ?_⟩
  · rw [heq]; exact hfinL
  · rw [heq]; exact hfinU
  · intro contractRes hne
    cases uri with
    | nil => exact absurd rfl hne
    | cons c cs => rfl

/-- C8 witness: the substitution theorem at the concrete URI
`https://host/\x7bid\x7d.json` and token id 42, together with a direct
evaluation at token id 255. -/
theorem erc1155_id_substitution_witness :
    ((42 : Nat) < 2 ^ 256) ∧
    (format064x 42).length = 64 ∧
    (¬ idLowerPat <:+:
      substituteErc1155Id (String.toList ("https://host/\x7bid\x7d.json")) 42) ∧
    (¬ idUpperPat <:+:
      substituteErc1155Id (String.toList ("https://host/\x7bid\x7d.json")) 42) ∧
    substituteErc1155Id (String.toList ("x\x7bid\x7d")) 255 =
      ('x') :: format064x 255 :=
  ⟨by norm_num,
   (erc1155_id_substitution (String.toList ("https://host/\x7bid\x7d.json")) 42
     (by norm_num)).2.1,
   (erc1155_id_substitution (String.toList ("https://host/\x7bid\x7d.json")) 42
     (by norm_num)).2.2.2.2.1,
   (erc1155_id_substitution (String.toList ("https://host/\x7bid\x7d.json")) 42
     (by norm_num)).2.2.2.2.2.1,
   by decide⟩

end NftInspector
